import Mathlib

/- Verification of the chat route handler in app/api/chat/route.ts:
   intent classification, the domain guard, outbound message composition,
   the post-completion enrichment (featured listings, next-steps
   normalization, follow-up generation), and the error handler. -/

set_option maxRecDepth 100000

namespace SkillStrong

/-- Text is modelled as a list of characters. -/
abbrev Str := List Char

/-- Lowercasing, modelling JavaScript toLowerCase on the ASCII texts involved. -/
def lower (s : Str) : Str := s.map Char.toLower

/-- Boolean test that the first list is a prefix of the second. -/
def prefixAt : Str → Str → Bool
  | [], _ => true
  | _ :: _, [] => false
  | p :: ps, c :: cs => p == c && prefixAt ps cs

/-- Index of the first occurrence of pat in the second argument, if any. -/
def findPat (pat : Str) : Str → Option Nat
  | [] => if prefixAt pat [] = true then some 0 else none
  | c :: rest =>
    if prefixAt pat (c :: rest) = true then some 0
    else (findPat pat rest).map (fun n => n + 1)

/-- Substring containment, modelling the JavaScript includes method. -/
def containsPat (hay pat : Str) : Bool := (findPat pat hay).isSome

/-- Number of positions of the second argument at which pat occurs. -/
def countOccur (pat : Str) : Str → Nat
  | [] => if prefixAt pat [] = true then 1 else 0
  | c :: rest => (if prefixAt pat (c :: rest) = true then 1 else 0) + countOccur pat rest

/-- Message roles, from the Message type of the orchestrator module. -/
inductive Role
  | system
  | user
  | assistant
deriving DecidableEq

/-- A conversation message: id, role, content. -/
structure Message where
  id : Str
  role : Role
  content : Str
deriving DecidableEq

/-- A marketplace listing as consumed by the featured block: title, org, location. -/
structure FeaturedListing where
  title : Str
  org : Str
  location : Str
deriving DecidableEq

/-- The preamble result destructured by POST. -/
structure PreambleResult where
  messagesForLLM : List Message
  lastUserRaw : Str
  effectiveLocation : Option Str
  internalRAG : Str
  domainGuarded : Bool
deriving DecidableEq

/-- Thrown conditions distinguished by the catch block of POST. -/
inductive Err
  | locationRequired
  | generic
deriving DecidableEq

/-- The intent labels of classifyIntent. -/
inductive Intent
  | quiz
  | chat
  | explain
deriving DecidableEq

def quizKw : Str := "quiz".toList

def assessmentKw : Str := "assessment".toList

def whichCareerKw : Str := "which career".toList

def helpDecideKw : Str := "help me decide".toList

def explainKw : Str := "explain".toList

def diffBetweenKw : Str := "difference between".toList

def whatDiffKw : Str := "what is the difference".toList

def howDoesKw : Str := "how does".toList

/-- Transcription of classifyIntent from route.ts: deterministic keyword rules on
the lowercased text, quiz signals first, then explain signals, else chat. -/
def classifyIntent (userText : Str) : Intent :=
  let text := lower userText
  if containsPat text quizKw || containsPat text assessmentKw ||
      containsPat text whichCareerKw || containsPat text helpDecideKw then
    Intent.quiz
  else if containsPat text explainKw || containsPat text diffBetweenKw ||
      containsPat text whatDiffKw || containsPat text howDoesKw then
    Intent.explain
  else
    Intent.chat

/-- Transcription of defaultFollowups from route.ts; the source applies slice 0 3
to the three-element array, modelled by take 3. -/
def defaultFollowups : List Str :=
  ([("Find local apprenticeships").toList,
    ("Explore training programs").toList,
    ("Compare typical salaries (BLS)").toList]).take 3

/-- The fixed off-domain answer of the guard branch. -/
def guardAnswer : Str :=
  ("I focus on modern manufacturing careers. We can explore roles like CNC Machinist, Robotics Technician, Welding Programmer, Additive Manufacturing, Maintenance Tech, or Quality Control.").toList

/-- The fixed instructional answer of the location-required branch. -/
def locationAnswer : Str :=
  ("To find local results, please set your location using the button in the header.").toList

/-- The fixed apology answer of the generic error branch; character 39 is the
apostrophe of the source text. -/
def apologyAnswer : Str :=
  ("Sorry, I couldn").toList ++ [Char.ofNat 39] ++ ("t process that.").toList

/-- The canonical next-steps block appended by the enricher. -/
def nextStepsBlock : Str :=
  ("\n\n**Next Steps**\nYou can also search for more opportunities on your own:\n* [Search SkillStrong Programs](/programs/all)\n* [Search SkillStrong Jobs](/jobs/all)\n* [Search US Department of Education for programs](https://collegescorecard.ed.gov/)\n* [Search for jobs on Indeed.com](https://www.indeed.com/)").toList

/-- The lowercased literal part of the strip regex: two newlines, then the bold
heading Next Steps with a colon. -/
def nsMarker : Str := ("\n\n**next steps:**").toList

/-- A next-steps heading: the bold marker followed by the words next steps; used,
case-insensitively via lower, to count next-steps blocks of a text. -/
def nsHeading : Str := ("**next steps").toList

/-- Modelled from the spec: COACH_SYSTEM is the base system prompt constant
imported from the orchestrator module, which is not among the given sources; its
content is out of scope, only its identity as the first outbound system message
matters here. -/
def COACH_SYSTEM : Str := ("COACH_SYSTEM").toList

/-- JavaScript truthiness of a nullable string: present and non-empty. -/
def truthyOpt : Option Str → Bool
  | none => false
  | some s => !s.isEmpty

/-- The string held by a nullable string, empty when absent. -/
def locOf : Option Str → Str
  | none => []
  | some l => l

/-- Transcription of the replace call of step b of onFinal, whose regex matches two
newlines, the bold Next Steps heading with a colon (case-insensitive flag), then
greedily everything to the end of the text (dot-all flag): the result truncates at
the first marker occurrence, or is the input unchanged when no marker occurs. -/
def stripNextSteps (s : Str) : Str :=
  match findPat nsMarker (lower s) with
  | none => s
  | some i => s.take i

/-- Step b of onFinal: when internalRAG is non-empty (JavaScript truthiness),
strip and append the canonical block; otherwise leave the answer unchanged. -/
def normalizeNextSteps (internalRAG s : Str) : Str :=
  if internalRAG.isEmpty then s else stripNextSteps s ++ nextStepsBlock

def nlTxt : Str := ("\n").toList

/-- One bullet of the featured block: title, organization, location. -/
def featuredLine (f : FeaturedListing) : Str :=
  ("- **").toList ++ f.title ++ ("** — ").toList ++ f.org ++
    (" (").toList ++ f.location ++ (")").toList

/-- The featured block appended in step a of onFinal; the location suffix of the
heading appears only when the effective location is truthy. -/
def featuredBlock (loc : Option Str) (featured : List FeaturedListing) : Str :=
  let locTxt : Str := if truthyOpt loc = true then (" near ").toList ++ locOf loc else []
  ("\n\n**Featured").toList ++ locTxt ++ (":**\n").toList ++
    List.intercalate nlTxt (featured.map featuredLine)

/-- The collaborators and their outcomes for one request: the preamble result or
the condition it throws, the completion call outcome (the accumulated streamed
text, or a thrown condition), the listing matcher outcome, and the follow-up
generator. Modelled from the spec: generateFollowups and findFeaturedMatching are
imported from modules that are not among the given sources; the generator is its
interface contract, a function from the message history, the final answer text and
the optional location to a sequence of suggestions, where a failed generation
surfaces as an empty sequence, which the error path replaces with the defaults. -/
structure Env where
  preamble : Except Err PreambleResult
  completionOutcome : Except Err Str
  featured : Except Unit (List FeaturedListing)
  generateFollowups : List Message → Str → Option Str → List Str

/-- A JSON response of the non-streaming branches: answer, followups, HTTP status. -/
structure JsonResponse where
  answer : Str
  followups : List Str
  status : Nat
deriving DecidableEq

/-- The observable outcome of POST: a JSON response, or a streamed answer with the
final side-channel payload of finalAnswer and followups. -/
inductive RouteOutcome
  | json (r : JsonResponse)
  | stream (finalAnswer : Str) (followups : List Str)
deriving DecidableEq

/-- The result of one POST invocation: its outcome, the message sequence passed to
the completion service (none when the service is never called), and the modelled
diagnostic log (only the intent line is modelled). -/
structure PostResult where
  outcome : RouteOutcome
  sent : Option (List Message)
  log : List Str

/-- The answer text of an outcome: the JSON answer, or the final streamed answer. -/
def routeAnswer : RouteOutcome → Str
  | RouteOutcome.json r => r.answer
  | RouteOutcome.stream a _ => a

/-- The followups of an outcome. -/
def routeFollowups : RouteOutcome → List Str
  | RouteOutcome.json r => r.followups
  | RouteOutcome.stream _ fus => fus

def sysPromptIdTxt : Str := ("system_prompt").toList

def sysLocIdTxt : Str := ("system_location").toList

def userLocTxt : Str := ("User location: ").toList

def finalIdTxt : Str := ("final_answer").toList

def logHeadTxt : Str := ("[SkillStrong] Intent detected: ").toList

/-- The base system prompt message of step 3 of POST. -/
def coachMessage : Message :=
  { id := sysPromptIdTxt, role := Role.system, content := COACH_SYSTEM }

/-- The location fact message of step 3 of POST. -/
def locMessage (l : Str) : Message :=
  { id := sysLocIdTxt, role := Role.system, content := userLocTxt ++ l }

/-- Step 3 of POST: the base system prompt, then the location fact when the
effective location is truthy, then the prior conversation unchanged. -/
def composeMessages (pr : PreambleResult) : List Message :=
  (if truthyOpt pr.effectiveLocation = true
    then [coachMessage, locMessage (locOf pr.effectiveLocation)]
    else [coachMessage]) ++ pr.messagesForLLM

/-- Step a of onFinal: append the featured block when the matcher succeeds with a
non-empty result; a thrown matcher error is swallowed (logged only) and leaves the
text unchanged. -/
def withFeatured (env : Env) (pr : PreambleResult) (completion : Str) : Str :=
  match env.featured with
  | Except.error _ => completion
  | Except.ok featured =>
    if featured.length > 0 then completion ++ featuredBlock pr.effectiveLocation featured
    else completion

/-- The final answer assembled by onFinal from the raw completion. -/
def finalAnswerOf (env : Env) (pr : PreambleResult) (completion : Str) : Str :=
  normalizeNextSteps pr.internalRAG (withFeatured env pr completion)

/-- The message history passed to the follow-up generator in step c of onFinal:
the prior messages plus the finalized answer as a synthetic assistant turn. -/
def finalMessagesOf (env : Env) (pr : PreambleResult) (completion : Str) : List Message :=
  pr.messagesForLLM ++
    [{ id := finalIdTxt, role := Role.assistant,
       content := finalAnswerOf env pr completion }]

/-- The followups of the final payload, from step c of onFinal. -/
def finalFollowupsOf (env : Env) (pr : PreambleResult) (completion : Str) : List Str :=
  env.generateFollowups (finalMessagesOf env pr completion)
    (finalAnswerOf env pr completion) pr.effectiveLocation

def intentName : Intent → Str
  | Intent.quiz => ("quiz").toList
  | Intent.chat => ("chat").toList
  | Intent.explain => ("explain").toList

/-- The diagnostic log line of step 1.5 of POST; emitted only when the last raw
user text is truthy (non-empty). -/
def intentLogOf (cls : Str → Intent) (pr : PreambleResult) : List Str :=
  if pr.lastUserRaw.isEmpty then []
  else [logHeadTxt ++ intentName (cls pr.lastUserRaw)]

/-- The catch block of POST: the location-required condition yields the fixed
instructional message with no follow-ups and success status; any other condition
yields the apology with status 500, substituting the defaults when the generated
follow-ups are empty. The msgs and loc arguments are the values the surrounding
scope holds when the condition is thrown. -/
def catchBranch (env : Env) (e : Err) (msgs : List Message) (loc : Option Str) : PostResult :=
  match e with
  | Err.locationRequired =>
    { outcome := RouteOutcome.json { answer := locationAnswer, followups := [], status := 200 }
      sent := none
      log := [] }
  | Err.generic =>
    let errorFollowups := env.generateFollowups msgs apologyAnswer loc
    { outcome := RouteOutcome.json
        { answer := apologyAnswer
          followups := if errorFollowups.length > 0 then errorFollowups else defaultFollowups
          status := 500 }
      sent := none
      log := [] }

/-- The POST handler, parametrized by the intent classifier (the source installs
classifyIntent): run the preamble, classify intent for the log, short-circuit on
the domain guard, compose the outbound messages, call the completion service, run
the post-completion enrichment, and catch thrown conditions. When the preamble
throws, the surrounding scope still holds the initial values: no messages and no
location. When the completion call throws, the destructured preamble values are in
scope and the composed messages were already passed to the service. -/
def POSTgen (cls : Str → Intent) (env : Env) : PostResult :=
  match env.preamble with
  | Except.error e => catchBranch env e [] none
  | Except.ok pr =>
    if pr.domainGuarded then
      { outcome := RouteOutcome.json
          { answer := guardAnswer, followups := defaultFollowups, status := 200 }
        sent := none
        log := intentLogOf cls pr }
    else
      match env.completionOutcome with
      | Except.error e =>
        let cb := catchBranch env e pr.messagesForLLM pr.effectiveLocation
        { outcome := cb.outcome
          sent := some (composeMessages pr)
          log := intentLogOf cls pr ++ cb.log }
      | Except.ok completion =>
        { outcome := RouteOutcome.stream (finalAnswerOf env pr completion)
            (finalFollowupsOf env pr completion)
          sent := some (composeMessages pr)
          log := intentLogOf cls pr }

/-- The POST handler as shipped, with the intent classifier of route.ts. -/
def POST (env : Env) : PostResult := POSTgen classifyIntent env

/-- The number of next-steps headings of a text, counted case-insensitively. -/
def nextStepsCount (s : Str) : Nat := countOccur nsHeading (lower s)

/-- Case-insensitive containment of a keyword. -/
def icontains (hay kw : Str) : Bool := containsPat (lower hay) (lower kw)

/-- The full quiz-signal condition of classifyIntent, stated over the raw text. -/
def quizSignal (t : Str) : Bool :=
  icontains t quizKw || icontains t assessmentKw || icontains t whichCareerKw ||
    icontains t helpDecideKw

/-- The full explain-signal condition of classifyIntent, stated over the raw text. -/
def explainSignal (t : Str) : Bool :=
  icontains t explainKw || icontains t diffBetweenKw || icontains t whatDiffKw ||
    icontains t howDoesKw

/-- Transcription of the words of claim C4, for comparison with classifyIntent:
quiz when the text contains quiz or which career (case-insensitively), else
explain when it contains explain or how does, otherwise chat. -/
def claimedIntentC4 (t : Str) : Intent :=
  if icontains t quizKw || icontains t whichCareerKw then Intent.quiz
  else if icontains t explainKw || icontains t howDoesKw then Intent.explain
  else Intent.chat

/-- A concrete user text containing the keyword assessment and none of the four
keywords named by claim C4. -/
def assessmentTxt : Str := ("take an assessment").toList

/-- The constantly empty follow-up generator, used in concrete instances. -/
def fuNone : List Message → Str → Option Str → List Str := fun _ _ _ => []

/-- A raw completion already holding a next-steps section whose heading has no
colon, the format of the canonical block itself. -/
def c1Completion : Str := ("Hi\n\n**Next Steps**\nDo X").toList

def prC1 : PreambleResult :=
  { messagesForLLM := [], lastUserRaw := [], effectiveLocation := none,
    internalRAG := ("rag").toList, domainGuarded := false }

def envC1 : Env :=
  { preamble := Except.ok prC1, completionOutcome := Except.ok c1Completion,
    featured := Except.ok [], generateFollowups := fuNone }

/-- A raw completion holding a next-steps section in the colon format matched by
the strip regex. -/
def c1wCompletion : Str := ("Hello\n\n**Next Steps:** old").toList

def prC1w : PreambleResult :=
  { messagesForLLM := [], lastUserRaw := [], effectiveLocation := none,
    internalRAG := ("rag").toList, domainGuarded := false }

def envC1w : Env :=
  { preamble := Except.ok prC1w, completionOutcome := Except.ok c1wCompletion,
    featured := Except.ok [], generateFollowups := fuNone }

def prC2 : PreambleResult :=
  { messagesForLLM := [], lastUserRaw := ("hello").toList, effectiveLocation := none,
    internalRAG := [], domainGuarded := true }

def envC2 : Env :=
  { preamble := Except.ok prC2, completionOutcome := Except.ok [],
    featured := Except.ok [], generateFollowups := fuNone }

def envC3 : Env :=
  { preamble := Except.error Err.generic, completionOutcome := Except.ok [],
    featured := Except.ok [], generateFollowups := fuNone }

def envC5 : Env :=
  { preamble := Except.error Err.locationRequired, completionOutcome := Except.ok [],
    featured := Except.ok [], generateFollowups := fuNone }

def c6Completion : Str := ("Some answer").toList

def prC6 : PreambleResult :=
  { messagesForLLM := [], lastUserRaw := ("welding").toList, effectiveLocation := none,
    internalRAG := ("rag").toList, domainGuarded := false }

def envC6 : Env :=
  { preamble := Except.ok prC6, completionOutcome := Except.ok c6Completion,
    featured := Except.error (), generateFollowups := fuNone }

def prC7 : PreambleResult :=
  { messagesForLLM :=
      [{ id := ("m1").toList, role := Role.user, content := ("hi there").toList }],
    lastUserRaw := ("hi there").toList,
    effectiveLocation := some (("Austin, TX").toList),
    internalRAG := [], domainGuarded := false }

def envC7 : Env :=
  { preamble := Except.ok prC7, completionOutcome := Except.ok (("ok").toList),
    featured := Except.ok [], generateFollowups := fuNone }

def envC8 : Env :=
  { preamble := Except.error Err.generic, completionOutcome := Except.ok [],
    featured := Except.ok [], generateFollowups := fuNone }

def c10Completion : Str := ("A\n\n**Next Steps:** old tail").toList

def c10Listing : FeaturedListing :=
  { title := ("CNC Program").toList, org := ("ACC").toList, location := ("Austin").toList }

def prC10 : PreambleResult :=
  { messagesForLLM := [], lastUserRaw := ("cnc").toList,
    effectiveLocation := some (("Austin, TX").toList),
    internalRAG := ("rag").toList, domainGuarded := false }

def envC10 : Env :=
  { preamble := Except.ok prC10, completionOutcome := Except.ok c10Completion,
    featured := Except.ok [c10Listing], generateFollowups := fuNone }

/-- prefixAt agrees with the list prefix relation. -/
theorem prefixAt_iff (p s : Str) : prefixAt p s = true ↔ p <+: s := by
  induction p generalizing s with
  | nil => simp [prefixAt]
  | cons a ps ih =>
    cases s with
    | nil => simp [prefixAt]
    | cons b cs =>
      simp [prefixAt, List.cons_prefix_cons, Bool.and_eq_true, beq_iff_eq, ih]

/-- A prefix is no longer than the list. -/
theorem prefixAt_length {p s : Str} (h : prefixAt p s = true) : p.length ≤ s.length :=
  ((prefixAt_iff p s).mp h).length_le

/-- A pattern longer than the list is not a prefix of it. -/
theorem prefixAt_false_of_lt {p s : Str} (h : s.length < p.length) :
    prefixAt p s = false := by
  cases hb : prefixAt p s with
  | false => rfl
  | true => exact absurd (prefixAt_length hb) (by omega)

/-- A prefix of a list is a prefix of any extension of it. -/
theorem prefixAt_append_left {p s : Str} (t : Str) (h : prefixAt p s = true) :
    prefixAt p (s ++ t) = true :=
  (prefixAt_iff _ _).mpr (((prefixAt_iff p s).mp h).trans (List.prefix_append s t))

/-- Extending a list does not change prefix tests by patterns that fit in it. -/
theorem prefixAt_append_of_le {p s : Str} (t : Str) (h : p.length ≤ s.length) :
    prefixAt p (s ++ t) = prefixAt p s := by
  cases hb : prefixAt p s with
  | true => rw [prefixAt_append_left t hb]
  | false =>
    cases hb2 : prefixAt p (s ++ t) with
    | false => rfl
    | true =>
      have hp := (prefixAt_iff _ _).mp hb2
      have hps := List.prefix_of_prefix_length_le hp (List.prefix_append s t) h
      exact absurd ((prefixAt_iff p s).mpr hps) (by simp [hb])

/-- A pattern longer than s that is a prefix of s extended by a cons contains the
head of the extension. -/
theorem mem_of_prefixAt_straddle {p s : Str} {c : Char} {t : Str}
    (hlen : s.length < p.length) (h : prefixAt p (s ++ c :: t) = true) : c ∈ p := by
  have htake := List.prefix_iff_eq_take.mp ((prefixAt_iff _ _).mp h)
  rw [List.take_append_eq_append_take, List.take_of_length_le (le_of_lt hlen)] at htake
  obtain ⟨m, hm⟩ : ∃ m, p.length - s.length = m + 1 :=
    ⟨p.length - s.length - 1, by omega⟩
  rw [hm, List.take_succ_cons] at htake
  rw [htake]
  simp

/-- Any hit of findPat leaves room for the whole pattern. -/
theorem findPat_bound {p : Str} :
    ∀ {hay : Str} {i : Nat}, findPat p hay = some i → p.length + i ≤ hay.length := by
  intro hay
  induction hay with
  | nil =>
    intro i h
    unfold findPat at h
    split at h
    · next hp =>
      have hle := prefixAt_length hp
      cases h
      simpa using hle
    · exact absurd h (by simp)
  | cons c rest ih =>
    intro i h
    unfold findPat at h
    split at h
    · next hp =>
      cases h
      simpa using prefixAt_length hp
    · next hp =>
      obtain ⟨j, hj, hi⟩ : ∃ j, findPat p rest = some j ∧ j + 1 = i := by
        cases hf : findPat p rest with
        | none => rw [hf] at h; exact absurd h (by simp)
        | some j => rw [hf] at h; simp at h; exact ⟨j, rfl, h⟩
      have := ih hj
      simp only [List.length_cons]
      omega

/-- The first hit of a non-empty pattern is unchanged by extending the text. -/
theorem findPat_append {p : Str} (hp : p ≠ []) :
    ∀ {xs : Str} {i : Nat}, findPat p xs = some i →
      ∀ ys, findPat p (xs ++ ys) = some i := by
  intro xs
  induction xs with
  | nil =>
    intro i h ys
    unfold findPat at h
    split at h
    · next hpre =>
      have : p = [] := List.eq_nil_of_length_eq_zero (by
        have := prefixAt_length hpre; simpa using this)
      exact absurd this hp
    · exact absurd h (by simp)
  | cons c rest ih =>
    intro i h ys
    unfold findPat at h
    rw [List.cons_append]
    by_cases hpre : prefixAt p (c :: rest) = true
    · rw [if_pos hpre] at h
      cases h
      unfold findPat
      rw [if_pos (by rw [← List.cons_append]; exact prefixAt_append_left ys hpre)]
    · rw [if_neg hpre] at h
      obtain ⟨j, hj⟩ : ∃ j, findPat p rest = some j := by
        cases hf : findPat p rest with
        | none => rw [hf] at h; exact absurd h (by simp)
        | some j => exact ⟨j, rfl⟩
      rw [hj] at h
      simp at h
      have hlen : p.length ≤ (c :: rest).length := by
        have := findPat_bound hj
        simp only [List.length_cons]
        omega
      have hnot : prefixAt p (c :: (rest ++ ys)) = false := by
        rw [← List.cons_append, prefixAt_append_of_le ys hlen]
        simpa using hpre
      unfold findPat
      rw [if_neg (by simp [hnot]), ih hj ys]
      simp [h]

/-- lower distributes over append. -/
theorem lower_append (a b : Str) : lower (a ++ b) = lower a ++ lower b :=
  List.map_append _ _ _

/-- lower preserves length. -/
theorem lower_length (a : Str) : (lower a).length = a.length := List.length_map _ _

/-- When the strip marker occurs in a text, stripping an extension of the text
equals stripping the text itself: everything from the marker on is removed either
way, the extension with it. -/
theorem stripNextSteps_append {a : Str} (b : Str)
    (h : (findPat nsMarker (lower a)).isSome = true) :
    stripNextSteps (a ++ b) = stripNextSteps a := by
  obtain ⟨i, hi⟩ := Option.isSome_iff_exists.mp h
  have h2 : findPat nsMarker (lower (a ++ b)) = some i := by
    rw [lower_append]
    exact findPat_append (by decide) hi (lower b)
  have hb := findPat_bound hi
  have hl := lower_length a
  unfold stripNextSteps
  rw [hi, h2]
  show (a ++ b).take i = a.take i
  exact List.take_append_of_le_length (by omega)

/-- countOccur of a non-empty pattern on the empty text is zero. -/
theorem countOccur_nil_of_ne {p : Str} (hp : p ≠ []) : countOccur p [] = 0 := by
  cases p with
  | nil => exact absurd rfl hp
  | cons a ps => rfl

/-- countOccur is additive over an append whose right part starts with a character
the pattern does not contain: no occurrence straddles the boundary. -/
theorem countOccur_append {p : Str} (hp : p ≠ []) (xs ys : Str)
    (hys : ∀ c, ys.head? = some c → c ∉ p) :
    countOccur p (xs ++ ys) = countOccur p xs + countOccur p ys := by
  induction xs with
  | nil => simp [countOccur_nil_of_ne hp]
  | cons c rest ih =>
    have hstep : prefixAt p (c :: (rest ++ ys)) = prefixAt p (c :: rest) := by
      by_cases hl : p.length ≤ (c :: rest).length
      · rw [← List.cons_append]
        exact prefixAt_append_of_le ys hl
      · push_neg at hl
        have h1 : prefixAt p (c :: rest) = false := prefixAt_false_of_lt hl
        have h2 : prefixAt p (c :: (rest ++ ys)) = false := by
          cases ys with
          | nil => simpa using h1
          | cons d ys2 =>
            cases hb : prefixAt p (c :: (rest ++ d :: ys2)) with
            | false => rfl
            | true =>
              have hmem : d ∈ p := by
                apply mem_of_prefixAt_straddle (s := c :: rest) (t := ys2) hl
                rw [List.cons_append]
                exact hb
              exact absurd hmem (hys d rfl)
        rw [h1, h2]
    show (if prefixAt p (c :: (rest ++ ys)) = true then 1 else 0) + countOccur p (rest ++ ys) = _
    rw [hstep, ih]
    show _ = (if prefixAt p (c :: rest) = true then 1 else 0) + countOccur p rest + countOccur p ys
    omega

/-- Appending the canonical next-steps block adds exactly one next-steps heading:
the block holds one, and none can straddle the boundary because the block starts
with a newline, a character the heading pattern does not contain. -/
theorem nextStepsCount_append_block (a : Str) :
    nextStepsCount (a ++ nextStepsBlock) = nextStepsCount a + 1 := by
  have hd : ∀ c, (lower nextStepsBlock).head? = some c → c ∉ nsHeading := by
    intro c hc
    have hh : (lower nextStepsBlock).head? = some (Char.ofNat 10) := by decide
    rw [hh] at hc
    injection hc with hc
    rw [← hc]
    decide
  unfold nextStepsCount
  rw [lower_append, countOccur_append (by decide) (lower a) (lower nextStepsBlock) hd,
    show countOccur nsHeading (lower nextStepsBlock) = 1 from by decide]

/-- When the preamble throws, POST runs the catch block with the initial scope:
no messages, no location. -/
theorem POSTgen_preamble_error (cls : Str → Intent) (env : Env) (e : Err)
    (h : env.preamble = Except.error e) :
    POSTgen cls env = catchBranch env e [] none := by
  unfold POSTgen
  rw [h]

/-- The guard branch of POST. -/
theorem POSTgen_guarded (cls : Str → Intent) (env : Env) (pr : PreambleResult)
    (h : env.preamble = Except.ok pr) (hg : pr.domainGuarded = true) :
    POSTgen cls env =
      { outcome := RouteOutcome.json
          { answer := guardAnswer, followups := defaultFollowups, status := 200 }
        sent := none
        log := intentLogOf cls pr } := by
  unfold POSTgen
  rw [h]
  simp [hg]

/-- When the completion call throws, POST runs the catch block with the
destructured preamble values in scope, the composed messages already sent. -/
theorem POSTgen_completion_error (cls : Str → Intent) (env : Env) (pr : PreambleResult)
    (e : Err) (h : env.preamble = Except.ok pr) (hg : pr.domainGuarded = false)
    (hc : env.completionOutcome = Except.error e) :
    POSTgen cls env =
      { outcome := (catchBranch env e pr.messagesForLLM pr.effectiveLocation).outcome
        sent := some (composeMessages pr)
        log := intentLogOf cls pr ++
          (catchBranch env e pr.messagesForLLM pr.effectiveLocation).log } := by
  unfold POSTgen
  rw [h]
  simp [hg, hc]

/-- The streaming branch of POST. -/
theorem POSTgen_stream (cls : Str → Intent) (env : Env) (pr : PreambleResult)
    (completion : Str) (h : env.preamble = Except.ok pr)
    (hg : pr.domainGuarded = false) (hc : env.completionOutcome = Except.ok completion) :
    POSTgen cls env =
      { outcome := RouteOutcome.stream (finalAnswerOf env pr completion)
          (finalFollowupsOf env pr completion)
        sent := some (composeMessages pr)
        log := intentLogOf cls pr } := by
  unfold POSTgen
  rw [h]
  simp [hg, hc]

/-- C2: for every request where the preamble result has domainGuarded true, the
handler returns the fixed off-topic answer together with exactly the 3 default
follow-ups, with HTTP success status, and the completion service is never called
(nothing is sent to it). -/
theorem C2_guard_short_circuit (env : Env) (pr : PreambleResult)
    (hpre : env.preamble = Except.ok pr) (hg : pr.domainGuarded = true) :
    (POST env).outcome = RouteOutcome.json
      { answer := guardAnswer, followups := defaultFollowups, status := 200 } ∧
    defaultFollowups.length = 3 ∧
    (POST env).sent = none := by
  unfold POST
  rw [POSTgen_guarded classifyIntent env pr hpre hg]
  exact ⟨rfl, rfl, rfl⟩

/-- C2 witness: the guard theorem at a concrete guarded environment. -/
theorem C2_guard_short_circuit_witness :
    (envC2.preamble = Except.ok prC2 ∧ prC2.domainGuarded = true) ∧
    ((POST envC2).outcome = RouteOutcome.json
      { answer := guardAnswer, followups := defaultFollowups, status := 200 } ∧
    defaultFollowups.length = 3 ∧
    (POST envC2).sent = none) :=
  ⟨⟨rfl, rfl⟩, C2_guard_short_circuit envC2 prC2 rfl rfl⟩

/-- C5: when the preamble throws the location-required condition, the handler
returns HTTP success status, the fixed instructional answer, and an empty
followups sequence; nothing is sent to the completion service. -/
theorem C5_location_required (env : Env)
    (h : env.preamble = Except.error Err.locationRequired) :
    (POST env).outcome = RouteOutcome.json
      { answer := locationAnswer, followups := [], status := 200 } ∧
    (POST env).sent = none := by
  unfold POST
  rw [POSTgen_preamble_error classifyIntent env Err.locationRequired h]
  exact ⟨rfl, rfl⟩

/-- C5 witness: the location-required theorem at a concrete environment. -/
theorem C5_location_required_witness :
    envC5.preamble = Except.error Err.locationRequired ∧
    ((POST envC5).outcome = RouteOutcome.json
      { answer := locationAnswer, followups := [], status := 200 } ∧
    (POST envC5).sent = none) :=
  ⟨rfl, C5_location_required envC5 rfl⟩

/-- C3: on every thrown condition other than location-required — the preamble
throwing a generic error, or the completion call throwing a generic error — the
handler returns the fixed apology answer with HTTP status 500 and a followups
sequence of length at least 1, the defaults being substituted when the follow-up
generator yields nothing. -/
theorem C3_generic_error (env : Env)
    (h : env.preamble = Except.error Err.generic ∨
      ∃ pr, env.preamble = Except.ok pr ∧ pr.domainGuarded = false ∧
        env.completionOutcome = Except.error Err.generic) :
    ∃ fus, (POST env).outcome = RouteOutcome.json
        { answer := apologyAnswer, followups := fus, status := 500 } ∧
      1 ≤ fus.length := by
  have key : ∀ msgs loc, ∃ fus,
      (catchBranch env Err.generic msgs loc).outcome = RouteOutcome.json
        { answer := apologyAnswer, followups := fus, status := 500 } ∧
      1 ≤ fus.length := by
    intro msgs loc
    refine ⟨_, rfl, ?_⟩
    by_cases hlen : (env.generateFollowups msgs apologyAnswer loc).length > 0
    · rw [if_pos hlen]
      omega
    · rw [if_neg hlen]
      decide
  unfold POST
  rcases h with h1 | ⟨pr, hpre, hg, hc⟩
  · rw [POSTgen_preamble_error classifyIntent env Err.generic h1]
    exact key [] none
  · rw [POSTgen_completion_error classifyIntent env pr Err.generic hpre hg hc]
    exact key pr.messagesForLLM pr.effectiveLocation

/-- C3 witness: the generic-error theorem at a concrete environment whose
follow-up generator yields nothing, so the defaults are substituted. -/
theorem C3_generic_error_witness :
    (envC3.preamble = Except.error Err.generic ∨
      ∃ pr, envC3.preamble = Except.ok pr ∧ pr.domainGuarded = false ∧
        envC3.completionOutcome = Except.error Err.generic) ∧
    ∃ fus, (POST envC3).outcome = RouteOutcome.json
        { answer := apologyAnswer, followups := fus, status := 500 } ∧
      1 ≤ fus.length :=
  ⟨Or.inl rfl, C3_generic_error envC3 (Or.inl rfl)⟩

/-- C8: at every emission point — the streamed success payload, the guard branch,
the location-required branch, and the generic-error branch — the followups
sequence has length at most 3, assuming the follow-up generator honors its
contract of returning at most 3 strings. -/
theorem C8_followups_le_three (env : Env)
    (hgen : ∀ msgs fa loc, (env.generateFollowups msgs fa loc).length ≤ 3) :
    (routeFollowups (POST env).outcome).length ≤ 3 := by
  have hcatch : ∀ e msgs loc,
      (routeFollowups (catchBranch env e msgs loc).outcome).length ≤ 3 := by
    intro e msgs loc
    cases e with
    | locationRequired => simp [catchBranch, routeFollowups]
    | generic =>
      simp only [catchBranch, routeFollowups]
      split
      · exact hgen msgs apologyAnswer loc
      · decide
  unfold POST
  cases hpre : env.preamble with
  | error e =>
    rw [POSTgen_preamble_error classifyIntent env e hpre]
    exact hcatch e [] none
  | ok pr =>
    by_cases hg : pr.domainGuarded = true
    · rw [POSTgen_guarded classifyIntent env pr hpre hg]
      show defaultFollowups.length ≤ 3
      decide
    · have hg2 : pr.domainGuarded = false := by simpa using hg
      cases hc : env.completionOutcome with
      | error e =>
        rw [POSTgen_completion_error classifyIntent env pr e hpre hg2 hc]
        exact hcatch e pr.messagesForLLM pr.effectiveLocation
      | ok completion =>
        rw [POSTgen_stream classifyIntent env pr completion hpre hg2 hc]
        exact hgen _ _ _

/-- C8 witness: the bound at a concrete environment whose generator returns
nothing everywhere. -/
theorem C8_followups_le_three_witness :
    (∀ msgs fa loc, (envC8.generateFollowups msgs fa loc).length ≤ 3) ∧
    (routeFollowups (POST envC8).outcome).length ≤ 3 :=
  ⟨fun _ _ _ => by simp [envC8, fuNone],
   C8_followups_le_three envC8 (fun _ _ _ => by simp [envC8, fuNone])⟩

/-- C9: the classified intent has no effect on downstream behavior: for every
request the outcome (answer text, followups, status, streamed content) and the
messages sent to the completion service are identical whatever intent value the
classifier produces; the intent reaches only the diagnostic log. -/
theorem C9_intent_no_downstream_effect (cls1 cls2 : Str → Intent) (env : Env) :
    (POSTgen cls1 env).outcome = (POSTgen cls2 env).outcome ∧
    (POSTgen cls1 env).sent = (POSTgen cls2 env).sent := by
  cases hpre : env.preamble with
  | error e =>
    rw [POSTgen_preamble_error cls1 env e hpre, POSTgen_preamble_error cls2 env e hpre]
    exact ⟨rfl, rfl⟩
  | ok pr =>
    by_cases hg : pr.domainGuarded = true
    · rw [POSTgen_guarded cls1 env pr hpre hg, POSTgen_guarded cls2 env pr hpre hg]
      exact ⟨rfl, rfl⟩
    · have hg2 : pr.domainGuarded = false := by simpa using hg
      cases hc : env.completionOutcome with
      | error e =>
        rw [POSTgen_completion_error cls1 env pr e hpre hg2 hc,
          POSTgen_completion_error cls2 env pr e hpre hg2 hc]
        exact ⟨rfl, rfl⟩
      | ok completion =>
        rw [POSTgen_stream cls1 env pr completion hpre hg2 hc,
          POSTgen_stream cls2 env pr completion hpre hg2 hc]
        exact ⟨rfl, rfl⟩

/-- C4: counterexample — the classifier has quiz signals beyond quiz and which
career, and explain signals beyond explain and how does: on a text containing
assessment and none of the four keywords the claim names, the claimed rule yields
chat while classifyIntent yields quiz. -/
theorem C4_counterexample :
    classifyIntent assessmentTxt = Intent.quiz ∧
    claimedIntentC4 assessmentTxt = Intent.chat ∧
    Intent.quiz ≠ Intent.chat := by decide

/-- C4 amended: the classifier returns quiz exactly when the text
case-insensitively contains one of quiz, assessment, which career, help me
decide; otherwise explain exactly when it contains one of explain, difference
between, what is the difference, how does; otherwise chat; and the empty text
yields chat. -/
theorem C4_amended_classifier (t : Str) :
    (classifyIntent t = Intent.quiz ↔ quizSignal t = true) ∧
    (classifyIntent t = Intent.explain ↔
      (quizSignal t = false ∧ explainSignal t = true)) ∧
    (classifyIntent t = Intent.chat ↔
      (quizSignal t = false ∧ explainSignal t = false)) ∧
    classifyIntent [] = Intent.chat := by
  have hq : quizSignal t =
      (containsPat (lower t) quizKw || containsPat (lower t) assessmentKw ||
        containsPat (lower t) whichCareerKw || containsPat (lower t) helpDecideKw) := by
    have h1 : lower quizKw = quizKw := by decide
    have h2 : lower assessmentKw = assessmentKw := by decide
    have h3 : lower whichCareerKw = whichCareerKw := by decide
    have h4 : lower helpDecideKw = helpDecideKw := by decide
    simp [quizSignal, icontains, h1, h2, h3, h4]
  have he : explainSignal t =
      (containsPat (lower t) explainKw || containsPat (lower t) diffBetweenKw ||
        containsPat (lower t) whatDiffKw || containsPat (lower t) howDoesKw) := by
    have h1 : lower explainKw = explainKw := by decide
    have h2 : lower diffBetweenKw = diffBetweenKw := by decide
    have h3 : lower whatDiffKw = whatDiffKw := by decide
    have h4 : lower howDoesKw = howDoesKw := by decide
    simp [explainSignal, icontains, h1, h2, h3, h4]
  have hcl : classifyIntent t =
      (if quizSignal t = true then Intent.quiz
        else if explainSignal t = true then Intent.explain else Intent.chat) := by
    simp only [classifyIntent]
    rw [hq, he]
  refine ⟨?_, ?_, ?_, by decide⟩ <;>
    rw [hcl] <;>
      cases hb1 : quizSignal t <;>
        cases hb2 : explainSignal t <;>
          simp [hb1, hb2]

/-- C6: when the listing matcher throws during enrichment, the error is swallowed
and the request does not fail — the outcome is still the streamed payload — and
the final answer equals the raw completion text subjected only to the next-steps
normalization step, the listings being omitted. -/
theorem C6_featured_error_swallowed (env : Env) (pr : PreambleResult)
    (completion : Str) (hpre : env.preamble = Except.ok pr)
    (hg : pr.domainGuarded = false)
    (hcomp : env.completionOutcome = Except.ok completion)
    (hfeat : env.featured = Except.error ()) :
    (POST env).outcome = RouteOutcome.stream
      (normalizeNextSteps pr.internalRAG completion)
      (finalFollowupsOf env pr completion) := by
  have hfa : finalAnswerOf env pr completion =
      normalizeNextSteps pr.internalRAG completion := by
    unfold finalAnswerOf withFeatured
    rw [hfeat]
  unfold POST
  rw [POSTgen_stream classifyIntent env pr completion hpre hg hcomp]
  show RouteOutcome.stream (finalAnswerOf env pr completion)
    (finalFollowupsOf env pr completion) = _
  rw [hfa]

/-- C6 witness: the matcher-throws theorem at a concrete environment. -/
theorem C6_featured_error_swallowed_witness :
    (envC6.preamble = Except.ok prC6 ∧ prC6.domainGuarded = false ∧
      envC6.completionOutcome = Except.ok c6Completion ∧
      envC6.featured = Except.error ()) ∧
    (POST envC6).outcome = RouteOutcome.stream
      (normalizeNextSteps prC6.internalRAG c6Completion)
      (finalFollowupsOf envC6 prC6 c6Completion) :=
  ⟨⟨rfl, rfl, rfl, rfl⟩,
    C6_featured_error_swallowed envC6 prC6 c6Completion rfl rfl rfl rfl⟩

/-- C7: whenever the request reaches the completion call, the sequence sent to
the completion service begins with the base system prompt, followed by the
location system message exactly when the effective location is present and
non-empty, followed by the full prior conversation unchanged and in original
order. -/
theorem C7_composed_messages (env : Env) (pr : PreambleResult)
    (hpre : env.preamble = Except.ok pr) (hg : pr.domainGuarded = false) :
    ∃ sys, (POST env).sent = some (sys ++ pr.messagesForLLM) ∧
      (truthyOpt pr.effectiveLocation = true →
        sys = [coachMessage, locMessage (locOf pr.effectiveLocation)]) ∧
      (truthyOpt pr.effectiveLocation = false → sys = [coachMessage]) := by
  have hsent : (POST env).sent = some (composeMessages pr) := by
    unfold POST
    cases hc : env.completionOutcome with
    | error e => rw [POSTgen_completion_error classifyIntent env pr e hpre hg hc]
    | ok completion => rw [POSTgen_stream classifyIntent env pr completion hpre hg hc]
  refine ⟨if truthyOpt pr.effectiveLocation = true
      then [coachMessage, locMessage (locOf pr.effectiveLocation)]
      else [coachMessage], ?_, ?_, ?_⟩
  · rw [hsent]; rfl
  · intro ht; rw [if_pos ht]
  · intro hf; rw [if_neg (by simp [hf])]

/-- C7 witness: the composition theorem at a concrete environment with a
non-empty effective location. -/
theorem C7_composed_messages_witness :
    (envC7.preamble = Except.ok prC7 ∧ prC7.domainGuarded = false) ∧
    ∃ sys, (POST envC7).sent = some (sys ++ prC7.messagesForLLM) ∧
      (truthyOpt prC7.effectiveLocation = true →
        sys = [coachMessage, locMessage (locOf prC7.effectiveLocation)]) ∧
      (truthyOpt prC7.effectiveLocation = false → sys = [coachMessage]) :=
  ⟨⟨rfl, rfl⟩, C7_composed_messages envC7 prC7 rfl rfl⟩

/-- C1: counterexample — with internalRAG non-empty and a raw completion already
holding a next-steps section whose heading lacks the colon the strip regex
requires, nothing is stripped and the final answer holds two next-steps headings,
refuting the invariant that the final text never contains two. -/
theorem C1_counterexample :
    envC1.preamble = Except.ok prC1 ∧
    prC1.internalRAG ≠ [] ∧
    nextStepsCount c1Completion = 1 ∧
    nextStepsCount (routeAnswer (POST envC1).outcome) = 2 :=
  ⟨rfl, by decide, by decide, by decide⟩

/-- C1 amended: when internalRAG is non-empty, the enricher strips everything
from the first occurrence of a blank line followed by the case-insensitive bold
Next Steps heading with a colon to the end of the text, then appends the
canonical block; the final answer therefore holds exactly one next-steps heading
provided the stripped prefix holds none — in particular whenever every
pre-existing next-steps section of the enriched text is in that colon format. A
pre-existing section in another format, such as the colon-less canonical heading
itself, is not stripped, and the final text then holds more than one. -/
theorem C1_nextSteps_amended (env : Env) (pr : PreambleResult) (completion : Str)
    (hpre : env.preamble = Except.ok pr) (hg : pr.domainGuarded = false)
    (hrag : pr.internalRAG ≠ [])
    (hcomp : env.completionOutcome = Except.ok completion)
    (hclean : nextStepsCount (stripNextSteps (withFeatured env pr completion)) = 0) :
    nextStepsCount (routeAnswer (POST env).outcome) = 1 := by
  have hni : pr.internalRAG.isEmpty = false := by
    cases hx : pr.internalRAG with
    | nil => exact absurd hx hrag
    | cons a l => rfl
  have hfinal : routeAnswer (POST env).outcome =
      stripNextSteps (withFeatured env pr completion) ++ nextStepsBlock := by
    unfold POST
    rw [POSTgen_stream classifyIntent env pr completion hpre hg hcomp]
    show routeAnswer (RouteOutcome.stream (finalAnswerOf env pr completion)
      (finalFollowupsOf env pr completion)) = _
    simp only [routeAnswer]
    unfold finalAnswerOf normalizeNextSteps
    rw [hni]
    simp
  rw [hfinal, nextStepsCount_append_block, hclean]

/-- C1 amended witness: a concrete run whose raw completion holds a next-steps
section in the colon format; it is stripped and exactly one heading remains. -/
theorem C1_nextSteps_amended_witness :
    (envC1w.preamble = Except.ok prC1w ∧ prC1w.domainGuarded = false ∧
      prC1w.internalRAG ≠ [] ∧
      envC1w.completionOutcome = Except.ok c1wCompletion ∧
      nextStepsCount (stripNextSteps (withFeatured envC1w prC1w c1wCompletion)) = 0) ∧
    nextStepsCount (routeAnswer (POST envC1w).outcome) = 1 :=
  ⟨⟨rfl, rfl, by decide, rfl, by decide⟩,
    C1_nextSteps_amended envC1w prC1w c1wCompletion rfl rfl (by decide) rfl (by decide)⟩

/-- C10: when internalRAG is non-empty and the raw completion holds the strip
marker — a blank line followed by the bold Next Steps heading with a colon — the
strip step removes everything from that marker to the end of the accumulated
text, including any featured block the preceding enrichment step appended: the
final answer equals the stripped completion plus the canonical block, with no
trace of the matched listings, whatever the listing matcher returned. -/
theorem C10_strip_removes_featured (env : Env) (pr : PreambleResult)
    (completion : Str) (hpre : env.preamble = Except.ok pr)
    (hg : pr.domainGuarded = false) (hrag : pr.internalRAG ≠ [])
    (hcomp : env.completionOutcome = Except.ok completion)
    (hmark : (findPat nsMarker (lower completion)).isSome = true) :
    routeAnswer (POST env).outcome = stripNextSteps completion ++ nextStepsBlock := by
  have hni : pr.internalRAG.isEmpty = false := by
    cases hx : pr.internalRAG with
    | nil => exact absurd hx hrag
    | cons a l => rfl
  have hstrip : stripNextSteps (withFeatured env pr completion) =
      stripNextSteps completion := by
    unfold withFeatured
    cases hf : env.featured with
    | error u => rfl
    | ok featured =>
      show stripNextSteps (if featured.length > 0
        then completion ++ featuredBlock pr.effectiveLocation featured
        else completion) = stripNextSteps completion
      by_cases hlen : featured.length > 0
      · rw [if_pos hlen]
        exact stripNextSteps_append _ hmark
      · rw [if_neg hlen]
  unfold POST
  rw [POSTgen_stream classifyIntent env pr completion hpre hg hcomp]
  show routeAnswer (RouteOutcome.stream (finalAnswerOf env pr completion)
    (finalFollowupsOf env pr completion)) = _
  simp only [routeAnswer]
  unfold finalAnswerOf normalizeNextSteps
  rw [hni]
  simp only [Bool.false_eq_true, if_false]
  rw [hstrip]

/-- C10 witness: a concrete run with one matched listing and a colon-format
next-steps section in the completion; the featured block is stripped away. -/
theorem C10_strip_removes_featured_witness :
    (envC10.preamble = Except.ok prC10 ∧ prC10.domainGuarded = false ∧
      prC10.internalRAG ≠ [] ∧
      envC10.completionOutcome = Except.ok c10Completion ∧
      (findPat nsMarker (lower c10Completion)).isSome = true) ∧
    routeAnswer (POST envC10).outcome = stripNextSteps c10Completion ++ nextStepsBlock :=
  ⟨⟨rfl, rfl, by decide, rfl, by decide⟩,
    C10_strip_removes_featured envC10 prC10 c10Completion rfl rfl (by decide) rfl
      (by decide)⟩

end SkillStrong
